import Mathlib

/-!
Shallow embedding of the order/tracking reconciliation engine of the
Etsy-management-software repository.

Python strings are modelled as `List Char` (`Str`), so that Python's
`str.strip`, `str.split`, `str.replace` and truthiness (`not s` ⟺ `s = ""`)
can be translated faithfully and reasoned about by structural induction.

Embedded source functions:
* `GoogleSheetsService._get_existing_data`  → `getExistingData`
* `GoogleSheetsService._generate_tracking_link` → `generateTrackingLink`
* `GoogleSheetsService.bulk_update_orders`  → `bulkUpdateOrders`
  (the in-memory reconciliation phase) and `applyUpdates` (the effect of the
  emitted batch-update write requests on the ledger rows)
* `app.bulk_update` route parsing and deduplication → `parseBulk`,
  `dedupLastWins`, `bulkUpdateRoute`
-/

namespace EtsyLedger

/-- A Python string, as a list of characters. -/
abbrev Str := List Char

/-- The whitespace characters removed by Python `str.strip()` (ASCII subset
that can occur in this application's inputs). -/
def isSpaceChar (c : Char) : Bool :=
  c = ' ' || c = '\t' || c = '\n' || c = '\r'

/-- Remove trailing whitespace, as the tail half of Python `str.strip()`. -/
def dropTrailing (l : Str) : Str :=
  ((l.reverse).dropWhile isSpaceChar).reverse

/-- Python `str.strip()`: remove leading and trailing whitespace. -/
def pyStrip (l : Str) : Str :=
  dropTrailing (l.dropWhile isSpaceChar)

/-- Python `s[1:] if s.startswith('#') else s`: strip one leading `#`. -/
def stripLeadingHash (l : Str) : Str :=
  match l with
  | [] => []
  | c :: rest => if c = '#' then rest else c :: rest

/-- The cleaning applied to an incoming order number in
`bulk_update_orders` (and in the `bulk_update` route):
`str(order_number).strip()` followed by stripping one leading `#`. -/
def cleanInputOrder (s : Str) : Str :=
  stripLeadingHash (pyStrip s)

/-- The cleaning applied to order numbers of *existing* ledger rows in
`bulk_update_orders`: `.astype(str).str.strip()` followed by
`.str.replace('#', '', regex=False)`, which removes every `#`. -/
def cleanExistingOrder (s : Str) : Str :=
  (pyStrip s).filter (fun c => !(c == '#'))

/-- The fixed URL template head of `_generate_tracking_link`. -/
def trackerUrlBase : Str := "https://parcelsapp.com/en/tracking/".toList

/-- `GoogleSheetsService._generate_tracking_link`: empty for an empty (falsy)
tracking number, otherwise the fixed template with the tracking number
appended verbatim. -/
def generateTrackingLink (t : Str) : Str :=
  if t = [] then [] else trackerUrlBase ++ t

/-- One row of the tracking ledger (sheet columns A–E). -/
structure LedgerRow where
  order_number : Str
  tracking_number : Str
  date : Str
  tracking_link : Str
  completed : Bool
deriving DecidableEq, Repr

/-- One entry of `rows_to_update` in `bulk_update_orders`: the 1-based sheet
row it targets plus the three replacement values written to columns B, C, D. -/
structure UpdateEntry where
  row : Nat
  order_number : Str
  tracking_number : Str
  date : Str
  tracking_link : Str
deriving DecidableEq, Repr

/-- The outcome of the reconciliation phase of `bulk_update_orders`. -/
structure BulkResult where
  rows_to_add : List LedgerRow
  rows_to_update : List UpdateEntry
  added : Nat
  updated : Nat
  skipped : Nat
deriving DecidableEq, Repr

/-- Cell `i` of a raw sheet row, with the empty string for a missing cell
(the spec's "substituting empty defaults" tolerance for short rows). -/
def cellAt (cells : List Str) (i : Nat) : Str :=
  (cells[i]?).getD []

/-- Build a `LedgerRow` from one raw data row of the sheet. -/
def rowFromCells (cells : List Str) : LedgerRow :=
  { order_number := cellAt cells 0
    tracking_number := cellAt cells 1
    date := cellAt cells 2
    tracking_link := cellAt cells 3
    completed := cellAt cells 4 == "TRUE".toList }

/-- `GoogleSheetsService._get_existing_data`. The argument is the outcome of
the `values().get(...)` API call: `Except.error` for a raised
connectivity/auth exception, `Except.ok values` for a successful read.
The Python body wraps everything in `try/except` and the handler returns an
empty DataFrame, so an errored fetch produces the empty row list; a
successful fetch drops the header row and maps the data rows. -/
def getExistingData (fetch : Except Str (List (List Str))) : List LedgerRow :=
  match fetch with
  | Except.error _ => []
  | Except.ok [] => []
  | Except.ok (_header :: rows) => rows.map rowFromCells

/-- The pandas lookup `existing_df_clean[mask].index[0]` of
`bulk_update_orders`: position of the first existing row whose cleaned order
number equals the target, if any. -/
def findFirstIdx (target : Str) : List LedgerRow → Option Nat
  | [] => none
  | r :: rest =>
    if cleanExistingOrder r.order_number = target then some 0
    else (findFirstIdx target rest).map (· + 1)

/-- One iteration of the pair loop of `bulk_update_orders`. -/
def bulkStep (existing : List LedgerRow) (today : Str)
    (acc : BulkResult) (p : Str × Str) : BulkResult :=
  let order_number := p.1
  let tracking_number := p.2
  if order_number = [] ∨ tracking_number = [] then
    { acc with skipped := acc.skipped + 1 }
  else
    let clean_order_number := cleanInputOrder order_number
    let tracking_link := generateTrackingLink tracking_number
    match findFirstIdx clean_order_number existing with
    | some idx =>
      { acc with
          rows_to_update := acc.rows_to_update ++
            [{ row := idx + 2
               order_number := clean_order_number
               tracking_number := tracking_number
               date := today
               tracking_link := tracking_link }]
          updated := acc.updated + 1 }
    | none =>
      { acc with
          rows_to_add := acc.rows_to_add ++
            [{ order_number := clean_order_number
               tracking_number := tracking_number
               date := today
               tracking_link := tracking_link
               completed := false }]
          added := acc.added + 1 }

/-- The reconciliation phase of `GoogleSheetsService.bulk_update_orders`:
fold the pair loop over the input pairs, starting from empty action lists
and zero counters. -/
def bulkUpdateOrders (existing : List LedgerRow) (today : Str)
    (pairs : List (Str × Str)) : BulkResult :=
  pairs.foldl (bulkStep existing today) ⟨[], [], 0, 0, 0⟩

/-- Effect on the in-memory ledger of the three write requests emitted for
one `rows_to_update` entry: cells B, C, D (tracking number, date, tracking
link) of sheet row `u.row` are replaced; sheet row `u.row` is ledger index
`u.row - 2` (row 1 is the header). Columns A (order number) and E
(completed) are not written. -/
def applyUpdateEntry (ledger : List LedgerRow) (u : UpdateEntry) : List LedgerRow :=
  match ledger[u.row - 2]? with
  | none => ledger
  | some r =>
    ledger.set (u.row - 2)
      { r with
          tracking_number := u.tracking_number
          date := u.date
          tracking_link := u.tracking_link }

/-- Effect of the whole batch-update request list. -/
def applyUpdates (ledger : List LedgerRow) (us : List UpdateEntry) : List LedgerRow :=
  us.foldl applyUpdateEntry ledger

/-- Python `line.split(' ', 1)` restricted to its two shapes: `none` when the
line contains no space (one part), `some (before, after)` when it splits at
the first space. -/
def splitFirstSpace : Str → Option (Str × Str)
  | [] => none
  | c :: rest =>
    if c = ' ' then some ([], rest)
    else (splitFirstSpace rest).map (fun p => (c :: p.1, p.2))

/-- Python `text.split('\n')`. -/
def splitLines : Str → List Str
  | [] => [[]]
  | c :: rest =>
    if c = '\n' then [] :: splitLines rest
    else
      match splitLines rest with
      | [] => [[c]]
      | l :: ls => (c :: l) :: ls

/-- Running state of the line-parsing loop of the `bulk_update` route:
accepted pairs and the number of lines appended to `parse_errors`. -/
structure ParseState where
  pairs : List (Str × Str)
  errors : Nat
deriving DecidableEq, Repr

/-- One iteration of the line loop in `app.bulk_update`: strip the line, skip
it if blank; a line with no space is a parse error; otherwise strip both
parts, strip one leading `#` from the order token, and reject (as a parse
error) pairs with an empty field. -/
def parseBulkLine (st : ParseState) (rawLine : Str) : ParseState :=
  let line := pyStrip rawLine
  if line = [] then st
  else
    match splitFirstSpace line with
    | none => { st with errors := st.errors + 1 }
    | some parts =>
      let order0 := pyStrip parts.1
      let tracking := pyStrip parts.2
      let order := stripLeadingHash order0
      if order = [] ∨ tracking = [] then { st with errors := st.errors + 1 }
      else { st with pairs := st.pairs ++ [(order, tracking)] }

/-- The parsing phase of `app.bulk_update`: the posted text is stripped, split
into lines, and each line fed through `parseBulkLine`. -/
def parseBulk (text : Str) : ParseState :=
  (splitLines (pyStrip text)).foldl parseBulkLine ⟨[], 0⟩

/-- Python dict insertion `d[k] = v` on an association list that represents
`unique_pairs`: overwrite the value of an existing key in place, else append. -/
def dictInsert : List (Str × Str) → Str → Str → List (Str × Str)
  | [], k, v => [(k, v)]
  | p :: rest, k, v =>
    if p.1 = k then (k, v) :: rest else p :: dictInsert rest k v

/-- The duplicate-removal step of `app.bulk_update` (`unique_pairs = {}` then
`unique_pairs[order] = tracking` over all pairs, then `list(items())`):
last occurrence's tracking wins. -/
def dedupLastWins (ps : List (Str × Str)) : List (Str × Str) :=
  ps.foldl (fun acc p => dictInsert acc p.1 p.2) []

/-- The `bulk_update` route pipeline feeding `bulk_update_orders`: parse the
posted text, deduplicate, reconcile. Returns the reconciliation outcome
together with the number of parse-error lines. -/
def bulkUpdateRoute (existing : List LedgerRow) (today : Str) (text : Str) :
    BulkResult × Nat :=
  let st := parseBulk text
  let finalPairs := dedupLastWins st.pairs
  (bulkUpdateOrders existing today finalPairs, st.errors)

/-- Number of blank (whitespace-only) lines among a line list. -/
def blankCount (lines : List Str) : Nat :=
  (lines.filter (fun l => decide (pyStrip l = []))).length

/-! ### Helper lemmas about `pyStrip` fixed points -/

lemma dropTrailing_sublist (l : Str) : (dropTrailing l).Sublist l := by
  have h := (List.dropWhile_sublist (l := l.reverse) isSpaceChar).reverse
  simpa [dropTrailing] using h

lemma pyStrip_sublist (l : Str) : (pyStrip l).Sublist l :=
  (dropTrailing_sublist _).trans (List.dropWhile_sublist _)

lemma dropWhile_fix_of_pyStrip_fix {l : Str} (h : pyStrip l = l) :
    l.dropWhile isSpaceChar = l := by
  apply (List.dropWhile_sublist (l := l) isSpaceChar).eq_of_length
  have h1 := (dropTrailing_sublist (l.dropWhile isSpaceChar)).length_le
  have h2 := (List.dropWhile_sublist (l := l) isSpaceChar).length_le
  have h3 : (pyStrip l).length = l.length := by rw [h]
  unfold pyStrip at h3
  omega

lemma dropTrailing_fix_of_pyStrip_fix {l : Str} (h : pyStrip l = l) :
    dropTrailing l = l := by
  have hd := dropWhile_fix_of_pyStrip_fix h
  unfold pyStrip at h
  rwa [hd] at h

lemma reverse_dropWhile_fix {l : Str} (h : dropTrailing l = l) :
    l.reverse.dropWhile isSpaceChar = l.reverse := by
  have h2 := congrArg List.reverse h
  unfold dropTrailing at h2
  rw [List.reverse_reverse] at h2
  exact h2

lemma head_not_space_of_dropWhile_fix {d : Char} {rest : Str}
    (h : (d :: rest).dropWhile isSpaceChar = d :: rest) :
    isSpaceChar d = false := by
  by_contra hns
  have hd : isSpaceChar d = true := by
    cases hb : isSpaceChar d with
    | false => exact absurd hb hns
    | true => rfl
  rw [List.dropWhile_cons, if_pos hd] at h
  have hlen := (List.dropWhile_sublist (l := rest) isSpaceChar).length_le
  rw [h] at hlen
  simp at hlen

lemma dropWhile_append_singleton_fix {l : Str} {c : Char}
    (hc : isSpaceChar c = false)
    (h : l.dropWhile isSpaceChar = l) :
    (l ++ [c]).dropWhile isSpaceChar = l ++ [c] := by
  cases l with
  | nil => simp [List.dropWhile_cons, hc]
  | cons d rest =>
    have hd := head_not_space_of_dropWhile_fix h
    simp [List.dropWhile_cons, hd]

lemma pyStrip_cons_fix {c : Char} {l : Str}
    (hc : isSpaceChar c = false) (h : pyStrip l = l) :
    pyStrip (c :: l) = c :: l := by
  have hdw : l.dropWhile isSpaceChar = l := dropWhile_fix_of_pyStrip_fix h
  have hrev : l.reverse.dropWhile isSpaceChar = l.reverse :=
    reverse_dropWhile_fix (dropTrailing_fix_of_pyStrip_fix h)
  unfold pyStrip
  rw [List.dropWhile_cons, hc]
  simp only [Bool.false_eq_true, if_false]
  unfold dropTrailing
  rw [List.reverse_cons, dropWhile_append_singleton_fix hc hrev,
    List.reverse_append, List.reverse_reverse]
  rfl

/-! ### Helper lemmas about `findFirstIdx` -/

lemma findFirstIdx_eq_none_iff (t : Str) (rows : List LedgerRow) :
    findFirstIdx t rows = none ↔
      ∀ r ∈ rows, cleanExistingOrder r.order_number ≠ t := by
  induction rows with
  | nil => exact iff_of_true rfl (by simp)
  | cons r rest ih =>
    by_cases hr : cleanExistingOrder r.order_number = t
    · simp [findFirstIdx, hr]
    · simp [findFirstIdx, hr, Option.map_eq_none', ih]

lemma findFirstIdx_eq_some_of (t : Str) (rows : List LedgerRow) (i : Nat)
    (r : LedgerRow) (hget : rows[i]? = some r)
    (hmatch : cleanExistingOrder r.order_number = t)
    (hfirst : ∀ j, j < i → ∀ rj, rows[j]? = some rj →
      cleanExistingOrder rj.order_number ≠ t) :
    findFirstIdx t rows = some i := by
  induction rows generalizing i with
  | nil => simp at hget
  | cons hd rest ih =>
    cases i with
    | zero =>
      simp only [List.getElem?_cons_zero, Option.some.injEq] at hget
      subst hget
      simp [findFirstIdx, hmatch]
    | succ n =>
      have hhd : cleanExistingOrder hd.order_number ≠ t := by
        exact hfirst 0 (Nat.succ_pos n) hd (by simp)
      simp only [List.getElem?_cons_succ] at hget
      have hrest := ih n hget
        (fun j hj rj hg => hfirst (j + 1) (Nat.succ_lt_succ hj) rj (by simpa using hg))
      simp [findFirstIdx, hhd, hrest]

lemma findFirstIdx_some_get {t : Str} {rows : List LedgerRow} {i : Nat}
    (h : findFirstIdx t rows = some i) :
    ∃ r, rows[i]? = some r ∧ cleanExistingOrder r.order_number = t := by
  induction rows generalizing i with
  | nil => simp [findFirstIdx] at h
  | cons hd rest ih =>
    by_cases hhd : cleanExistingOrder hd.order_number = t
    · simp only [findFirstIdx, hhd, if_pos, Option.some.injEq] at h
      subst h
      exact ⟨hd, by simp, hhd⟩
    · simp only [findFirstIdx, hhd, if_false, Option.map_eq_some'] at h
      obtain ⟨n, hn, hni⟩ := h
      obtain ⟨r, hr, hrt⟩ := ih hn
      exact ⟨r, by simpa [← hni] using hr, hrt⟩

/-! ### Single-pair evaluations of the reconciliation loop -/

lemma bulk_single_skip (existing : List LedgerRow) (today O T : Str)
    (h : O = [] ∨ T = []) :
    bulkUpdateOrders existing today [(O, T)] = ⟨[], [], 0, 0, 1⟩ := by
  simp [bulkUpdateOrders, bulkStep, h]

lemma bulk_single_update (existing : List LedgerRow) (today O T : Str) (i : Nat)
    (hO : O ≠ []) (hT : T ≠ [])
    (hf : findFirstIdx (cleanInputOrder O) existing = some i) :
    bulkUpdateOrders existing today [(O, T)] =
      ⟨[], [⟨i + 2, cleanInputOrder O, T, today, generateTrackingLink T⟩],
        0, 1, 0⟩ := by
  simp [bulkUpdateOrders, bulkStep, hO, hT, hf]

lemma bulk_single_add (existing : List LedgerRow) (today O T : Str)
    (hO : O ≠ []) (hT : T ≠ [])
    (hf : findFirstIdx (cleanInputOrder O) existing = none) :
    bulkUpdateOrders existing today [(O, T)] =
      ⟨[⟨cleanInputOrder O, T, today, generateTrackingLink T, false⟩], [],
        1, 0, 0⟩ := by
  simp [bulkUpdateOrders, bulkStep, hO, hT, hf]

/-! ### Counting lemmas for the whole pipeline -/

lemma bulkStep_counts (existing : List LedgerRow) (today : Str)
    (acc : BulkResult) (p : Str × Str) :
    (bulkStep existing today acc p).added +
      (bulkStep existing today acc p).updated +
      (bulkStep existing today acc p).skipped =
    acc.added + acc.updated + acc.skipped + 1 := by
  by_cases h : p.1 = [] ∨ p.2 = []
  · simp [bulkStep, h]; omega
  · push_neg at h
    cases hf : findFirstIdx (cleanInputOrder p.1) existing with
    | none => simp [bulkStep, h.1, h.2, hf]; omega
    | some idx => simp [bulkStep, h.1, h.2, hf]; omega

lemma bulk_counts_sum (existing : List LedgerRow) (today : Str)
    (pairs : List (Str × Str)) :
    ∀ acc : BulkResult,
      (pairs.foldl (bulkStep existing today) acc).added +
        (pairs.foldl (bulkStep existing today) acc).updated +
        (pairs.foldl (bulkStep existing today) acc).skipped =
      acc.added + acc.updated + acc.skipped + pairs.length := by
  induction pairs with
  | nil => intro acc; simp
  | cons p rest ih =>
    intro acc
    rw [List.foldl_cons, ih (bulkStep existing today acc p)]
    have := bulkStep_counts existing today acc p
    simp only [List.length_cons]
    omega

lemma blankCount_cons (l : Str) (rest : List Str) :
    blankCount (l :: rest) =
      (if pyStrip l = [] then 1 else 0) + blankCount rest := by
  by_cases hb : pyStrip l = []
  · simp [blankCount, List.filter_cons, hb, Nat.add_comm]
  · simp [blankCount, List.filter_cons, hb]

lemma parseBulkLine_counts (st : ParseState) (l : Str) :
    (parseBulkLine st l).pairs.length + (parseBulkLine st l).errors +
      (if pyStrip l = [] then 1 else 0) =
    st.pairs.length + st.errors + 1 := by
  by_cases hb : pyStrip l = []
  · simp [parseBulkLine, hb]
  · cases hs : splitFirstSpace (pyStrip l) with
    | none => simp [parseBulkLine, hb, hs]; omega
    | some parts =>
      by_cases he : stripLeadingHash (pyStrip parts.1) = [] ∨ pyStrip parts.2 = []
      · simp [parseBulkLine, hb, hs, he]; omega
      · simp [parseBulkLine, hb, hs, he]
        omega

lemma parse_length (lines : List Str) :
    ∀ st : ParseState,
      (lines.foldl parseBulkLine st).pairs.length +
        (lines.foldl parseBulkLine st).errors + blankCount lines =
      st.pairs.length + st.errors + lines.length := by
  induction lines with
  | nil => intro st; simp [blankCount]
  | cons l rest ih =>
    intro st
    rw [List.foldl_cons, blankCount_cons]
    have h1 := ih (parseBulkLine st l)
    have h2 := parseBulkLine_counts st l
    simp only [List.length_cons]
    omega

lemma dictInsert_length_le (l : List (Str × Str)) (k v : Str) :
    (dictInsert l k v).length ≤ l.length + 1 := by
  induction l with
  | nil => simp [dictInsert]
  | cons p rest ih =>
    by_cases h : p.1 = k
    · simp [dictInsert, h]
    · simp only [dictInsert, h, if_false, List.length_cons]
      omega

lemma dedup_foldl_length_le (ps : List (Str × Str)) :
    ∀ acc : List (Str × Str),
      (ps.foldl (fun acc p => dictInsert acc p.1 p.2) acc).length ≤
        acc.length + ps.length := by
  induction ps with
  | nil => intro acc; simp
  | cons p rest ih =>
    intro acc
    rw [List.foldl_cons]
    have h1 := ih (dictInsert acc p.1 p.2)
    have h2 := dictInsert_length_le acc p.1 p.2
    simp only [List.length_cons]
    omega

lemma dedupLastWins_length_le (ps : List (Str × Str)) :
    (dedupLastWins ps).length ≤ ps.length := by
  have := dedup_foldl_length_le ps []
  simpa [dedupLastWins] using this

/-! ### Claim theorems -/

/-- Claim C1 (counterexample): the claim says an errored fetch surfaces a
propagated error and is never treated as an empty ledger. In the code,
`_get_existing_data` catches every exception and returns an empty DataFrame:
an errored fetch produces exactly the empty row sequence, the same value as
a successful read of an empty sheet, and reconciliation proceeds against it
(here appending a row) instead of aborting. -/
theorem fetch_error_silently_empty_cx :
    getExistingData (Except.error ("HttpError 403: auth".toList)) =
      ([] : List LedgerRow) ∧
    getExistingData (Except.error ("HttpError 403: auth".toList)) =
      getExistingData (Except.ok []) ∧
    (bulkUpdateOrders (getExistingData (Except.error ("HttpError 403: auth".toList)))
        ("05-10-2026".toList)
        [("1001".toList, "TRACK123".toList)]).added = 1 :=
  ⟨rfl, rfl, by decide⟩

/-- Claim C1 (amended): if reading the existing ledger from the backing
store fails, `_get_existing_data` catches the exception, logs it, and
returns the empty row sequence — indistinguishable from an empty ledger —
so the reconciliation call proceeds against an empty ledger rather than
aborting with a propagated error. -/
theorem fetch_error_returns_empty_ledger (e : Str) :
    getExistingData (Except.error e) = [] := rfl

/-- Claim C5: for every non-empty tracking number `T` the derived tracking
link is the fixed URL template `https://parcelsapp.com/en/tracking/` with
`T` appended verbatim (no format validation), and for empty `T` the link is
the empty string. -/
theorem tracking_link_template :
    (∀ T : Str, T ≠ [] → generateTrackingLink T = trackerUrlBase ++ T) ∧
    generateTrackingLink [] = [] := by
  refine ⟨fun T hT => ?_, rfl⟩
  simp [generateTrackingLink, hT]

/-- Claim C5 (witness): the template instantiated at a concrete tracking
number. -/
theorem tracking_link_template_witness :
    generateTrackingLink ("UK216203823YP".toList) =
      trackerUrlBase ++ "UK216203823YP".toList :=
  tracking_link_template.1 ("UK216203823YP".toList) (by decide)

/-- Claim C3 (counterexample): the claim says a pair whose order number is
empty after trimming is dropped and counted as skipped. In
`bulk_update_orders` the emptiness test `if not order_number or not
tracking_number` runs before any trimming, so the whitespace-only order
number `" "` passes it, is trimmed to the empty string afterwards, and a row
with an empty order number is appended: `skipped` stays 0 and `added` is 1. -/
theorem whitespace_fields_not_skipped_cx :
    (bulkUpdateOrders [] ("05-10-2026".toList)
        [(" ".toList, "TRK".toList)]).skipped = 0 ∧
    (bulkUpdateOrders [] ("05-10-2026".toList)
        [(" ".toList, "TRK".toList)]).added = 1 ∧
    (bulkUpdateOrders [] ("05-10-2026".toList)
        [(" ".toList, "TRK".toList)]).rows_to_add =
      [⟨[], "TRK".toList, "05-10-2026".toList,
        trackerUrlBase ++ "TRK".toList, false⟩] := by
  decide

/-- Claim C3 (amended): a pair is dropped and counted as skipped exactly
when its order number or tracking number is the empty string as supplied,
before any trimming; every other pair (including whitespace-only fields)
produces exactly one insert-or-update action. -/
theorem pair_skip_amended (existing : List LedgerRow) (today O T : Str) :
    ((O = [] ∨ T = []) →
      bulkUpdateOrders existing today [(O, T)] = ⟨[], [], 0, 0, 1⟩) ∧
    (O ≠ [] → T ≠ [] →
      (bulkUpdateOrders existing today [(O, T)]).skipped = 0 ∧
      (bulkUpdateOrders existing today [(O, T)]).rows_to_add.length +
        (bulkUpdateOrders existing today [(O, T)]).rows_to_update.length = 1) := by
  refine ⟨bulk_single_skip existing today O T, fun hO hT => ?_⟩
  cases hf : findFirstIdx (cleanInputOrder O) existing with
  | none =>
    rw [bulk_single_add existing today O T hO hT hf]
    exact ⟨rfl, rfl⟩
  | some i =>
    rw [bulk_single_update existing today O T i hO hT hf]
    exact ⟨rfl, rfl⟩

/-- Claim C3 (amended, witness): a pair whose order number is the empty
string is skipped. -/
theorem pair_skip_amended_witness :
    bulkUpdateOrders [] ("05-10-2026".toList) [([], "TRK".toList)] =
      ⟨[], [], 0, 0, 1⟩ :=
  (pair_skip_amended [] ("05-10-2026".toList) [] ("TRK".toList)).1 (Or.inl rfl)

/-- Claim C8: a pair with no matching existing row yields one new ledger row
with `completed = false`, `date` = today, and the computed tracking link,
incrementing `added`; and the scenario: against an empty ledger the single
input line `#1001 TRACK123` gives `added=1, updated=0, skipped=0` and the
single row `(1001, TRACK123, today, link, false)`. -/
theorem insert_path_new_row :
    (∀ (existing : List LedgerRow) (today O T : Str), O ≠ [] → T ≠ [] →
      findFirstIdx (cleanInputOrder O) existing = none →
      bulkUpdateOrders existing today [(O, T)] =
        ⟨[⟨cleanInputOrder O, T, today, generateTrackingLink T, false⟩],
          [], 1, 0, 0⟩) ∧
    (∀ today : Str,
      bulkUpdateRoute [] today ("#1001 TRACK123".toList) =
        (⟨[⟨"1001".toList, "TRACK123".toList, today,
            trackerUrlBase ++ "TRACK123".toList, false⟩], [], 1, 0, 0⟩, 0)) := by
  refine ⟨fun existing today O T hO hT hf =>
    bulk_single_add existing today O T hO hT hf, fun today => ?_⟩
  rfl

/-- Claim C8 (witness): the insert path instantiated at a concrete unseen
order number. -/
theorem insert_path_new_row_witness :
    bulkUpdateOrders [] ("05-10-2026".toList)
        [("1001".toList, "TRACK123".toList)] =
      ⟨[⟨cleanInputOrder ("1001".toList), "TRACK123".toList,
          "05-10-2026".toList, generateTrackingLink ("TRACK123".toList),
          false⟩], [], 1, 0, 0⟩ :=
  insert_path_new_row.1 [] ("05-10-2026".toList) ("1001".toList)
    ("TRACK123".toList) (by decide) (by decide) (by decide)

/-- Claim C6: within one bulk-update call the route deduplicates input pairs
by order number with last-occurrence-wins dictionary semantics: for input
pairs `[(O,T1),(O,T2)]` the deduplicated batch is `[(O,T2)]`, identical to
deduplicating only the last occurrence, and reconciliation emits exactly one
insert-or-update action for `O` and it carries `T2`. -/
theorem batch_dedup_last_wins (existing : List LedgerRow)
    (today O T1 T2 : Str) (hO : O ≠ []) (hT2 : T2 ≠ []) :
    dedupLastWins [(O, T1), (O, T2)] = [(O, T2)] ∧
    bulkUpdateOrders existing today (dedupLastWins [(O, T1), (O, T2)]) =
      bulkUpdateOrders existing today (dedupLastWins [(O, T2)]) ∧
    (bulkUpdateOrders existing today
        (dedupLastWins [(O, T1), (O, T2)])).rows_to_add.length +
      (bulkUpdateOrders existing today
        (dedupLastWins [(O, T1), (O, T2)])).rows_to_update.length = 1 ∧
    (∀ r ∈ (bulkUpdateOrders existing today
        (dedupLastWins [(O, T1), (O, T2)])).rows_to_add,
      r.tracking_number = T2) ∧
    (∀ u ∈ (bulkUpdateOrders existing today
        (dedupLastWins [(O, T1), (O, T2)])).rows_to_update,
      u.tracking_number = T2) := by
  have hded : dedupLastWins [(O, T1), (O, T2)] = [(O, T2)] := by
    simp [dedupLastWins, dictInsert]
  have hded2 : dedupLastWins [(O, T2)] = [(O, T2)] := by
    simp [dedupLastWins, dictInsert]
  rw [hded, hded2]
  refine ⟨rfl, rfl, ?_, ?_, ?_⟩
  · cases hf : findFirstIdx (cleanInputOrder O) existing with
    | none => rw [bulk_single_add existing today O T2 hO hT2 hf]; rfl
    | some i => rw [bulk_single_update existing today O T2 i hO hT2 hf]; rfl
  · cases hf : findFirstIdx (cleanInputOrder O) existing with
    | none =>
      rw [bulk_single_add existing today O T2 hO hT2 hf]
      intro r hr
      simp at hr
      rw [hr]
    | some i =>
      rw [bulk_single_update existing today O T2 i hO hT2 hf]
      intro r hr
      simp at hr
  · cases hf : findFirstIdx (cleanInputOrder O) existing with
    | none =>
      rw [bulk_single_add existing today O T2 hO hT2 hf]
      intro u hu
      simp at hu
    | some i =>
      rw [bulk_single_update existing today O T2 i hO hT2 hf]
      intro u hu
      simp at hu
      rw [hu]

/-- Claim C6 (witness): deduplication of a concretely duplicated batch. -/
theorem batch_dedup_last_wins_witness :
    dedupLastWins [("77".toList, "T1".toList), ("77".toList, "T2".toList)] =
      [("77".toList, "T2".toList)] :=
  (batch_dedup_last_wins [] ("05-10-2026".toList) ("77".toList)
    ("T1".toList) ("T2".toList) (by decide) (by decide)).1

/-- Claim C7: for a pair matching an existing row at index `i`, the emitted
update list is a single entry targeting sheet row `i + 2`, and applying its
write requests (columns B, C, D only) replaces exactly the row's tracking
number, date, and tracking link — `order_number` and `completed` keep their
old values — while every other row is untouched. -/
theorem update_frame_three_fields (existing : List LedgerRow)
    (today O T : Str) (i : Nat) (hO : O ≠ []) (hT : T ≠ [])
    (hf : findFirstIdx (cleanInputOrder O) existing = some i) :
    (bulkUpdateOrders existing today [(O, T)]).rows_to_update =
      [⟨i + 2, cleanInputOrder O, T, today, generateTrackingLink T⟩] ∧
    (bulkUpdateOrders existing today [(O, T)]).rows_to_add = [] ∧
    (bulkUpdateOrders existing today [(O, T)]).updated = 1 ∧
    ∃ old, existing[i]? = some old ∧
      (applyUpdates existing
          (bulkUpdateOrders existing today [(O, T)]).rows_to_update)[i]? =
        some ⟨old.order_number, T, today, generateTrackingLink T,
          old.completed⟩ ∧
      ∀ j, j ≠ i →
        (applyUpdates existing
            (bulkUpdateOrders existing today [(O, T)]).rows_to_update)[j]? =
          existing[j]? := by
  rw [bulk_single_update existing today O T i hO hT hf]
  obtain ⟨old, hget, _⟩ := findFirstIdx_some_get hf
  have hlt : i < existing.length := by
    rcases List.getElem?_eq_some_iff.mp hget with ⟨h, _⟩
    exact h
  have hidx : i + 2 - 2 = i := by omega
  refine ⟨rfl, rfl, rfl, old, hget, ?_, ?_⟩
  · simp only [applyUpdates, List.foldl_cons, List.foldl_nil, applyUpdateEntry,
      hidx, hget]
    rw [List.getElem?_set_self hlt]
  · intro j hj
    simp only [applyUpdates, List.foldl_cons, List.foldl_nil, applyUpdateEntry,
      hidx, hget]
    exact List.getElem?_set_ne (fun h => hj h.symm)

/-- Claim C7 (witness): updating the tracking data of an existing completed
row leaves its order number and completion flag unchanged. -/
theorem update_frame_three_fields_witness :
    (bulkUpdateOrders
        [⟨"1001".toList, "OLD111".toList, "01-01-2026".toList, [], true⟩]
        ("05-10-2026".toList)
        [("1001".toList, "NEW222".toList)]).rows_to_update =
      [⟨0 + 2, cleanInputOrder ("1001".toList), "NEW222".toList,
        "05-10-2026".toList, generateTrackingLink ("NEW222".toList)⟩] :=
  (update_frame_three_fields
    [⟨"1001".toList, "OLD111".toList, "01-01-2026".toList, [], true⟩]
    ("05-10-2026".toList) ("1001".toList) ("NEW222".toList) 0
    (by decide) (by decide) (by decide)).1

/-- Claim C9: if several existing rows normalize to an input pair's order
number (external duplicates), the single emitted update targets the first
matching row in ledger scan order — sheet row `i + 2` for the least matching
index `i` — and no other action is produced. -/
theorem first_match_policy (existing : List LedgerRow) (today O T : Str)
    (i : Nat) (ri : LedgerRow) (hO : O ≠ []) (hT : T ≠ [])
    (hget : existing[i]? = some ri)
    (hmatch : cleanExistingOrder ri.order_number = cleanInputOrder O)
    (hfirst : ∀ j, j < i → ∀ rj, existing[j]? = some rj →
      cleanExistingOrder rj.order_number ≠ cleanInputOrder O) :
    (bulkUpdateOrders existing today [(O, T)]).rows_to_update =
      [⟨i + 2, cleanInputOrder O, T, today, generateTrackingLink T⟩] ∧
    (bulkUpdateOrders existing today [(O, T)]).rows_to_update.length = 1 ∧
    (bulkUpdateOrders existing today [(O, T)]).rows_to_add = [] := by
  have hf := findFirstIdx_eq_some_of (cleanInputOrder O) existing i ri
    hget hmatch hfirst
  rw [bulk_single_update existing today O T i hO hT hf]
  exact ⟨rfl, rfl, rfl⟩

/-- Claim C9 (witness): a ledger holding the same order number at indices 1
and 2 (after a non-matching row 0); the update targets sheet row 3, the
first match in scan order. -/
theorem first_match_policy_witness :
    (bulkUpdateOrders
        [⟨"9999".toList, "A".toList, [], [], false⟩,
         ⟨"1001".toList, "B".toList, [], [], false⟩,
         ⟨"1001".toList, "C".toList, [], [], false⟩]
        ("05-10-2026".toList)
        [("1001".toList, "NEW".toList)]).rows_to_update =
      [⟨1 + 2, cleanInputOrder ("1001".toList), "NEW".toList,
        "05-10-2026".toList, generateTrackingLink ("NEW".toList)⟩] :=
  (first_match_policy
    [⟨"9999".toList, "A".toList, [], [], false⟩,
     ⟨"1001".toList, "B".toList, [], [], false⟩,
     ⟨"1001".toList, "C".toList, [], [], false⟩]
    ("05-10-2026".toList) ("1001".toList) ("NEW".toList) 1
    ⟨"1001".toList, "B".toList, [], [], false⟩
    (by decide) (by decide) (by decide) (by decide)
    (fun j hj rj hg => by
      have hj0 : j = 0 := by omega
      subst hj0
      simp only [List.getElem?_cons_zero, Option.some.injEq] at hg
      subst hg
      decide)).1

/-- Claim C2 (counterexample): the claim says existing ledger order numbers
are normalized identically to input order numbers (trim plus one leading
`#`). The code removes every `#` from existing order numbers
(`str.replace('#','')`) but only one leading `#` from the input, so the
token `1#1` normalizes differently on the two sides and an existing row
`1#1` fails to match the input pair `1#1`: the pair is added as a new row
instead of updating. -/
theorem existing_normalization_differs_cx :
    cleanExistingOrder ("1#1".toList) ≠ cleanInputOrder ("1#1".toList) ∧
    (bulkUpdateOrders
        [⟨"1#1".toList, "OLD".toList, "01-01-2026".toList, [], false⟩]
        ("05-10-2026".toList) [("1#1".toList, "NEW".toList)]).updated = 0 ∧
    (bulkUpdateOrders
        [⟨"1#1".toList, "OLD".toList, "01-01-2026".toList, [], false⟩]
        ("05-10-2026".toList) [("1#1".toList, "NEW".toList)]).added = 1 := by
  decide

/-- Claim C2 (amended): existing order numbers are trimmed and have every
`#` removed while input order numbers are trimmed and have a single leading
`#` stripped; the two normalizations agree on any token whose `#` occurs at
most as its leading character; `#X` and `X` normalize to the same canonical
`X` for trimmed `X` not itself starting with `#`; and an existing row is
matched exactly when its remove-all-`#` canonical equals the input's
canonical order number. -/
theorem order_normalization_amended :
    (∀ s : Str, pyStrip s = s → '#' ∉ s.drop 1 →
      cleanExistingOrder s = cleanInputOrder s) ∧
    (∀ X : Str, pyStrip X = X → X.head? ≠ some '#' →
      cleanInputOrder ('#' :: X) = X ∧ cleanInputOrder X = X) ∧
    (∀ (rows : List LedgerRow) (t : Str),
      findFirstIdx t rows = none ↔
        ∀ r ∈ rows, cleanExistingOrder r.order_number ≠ t) := by
  refine ⟨?_, ?_, fun rows t => findFirstIdx_eq_none_iff t rows⟩
  · intro s hstrip hhash
    unfold cleanExistingOrder cleanInputOrder
    rw [hstrip]
    cases s with
    | nil => rfl
    | cons c t =>
      have htf : t.filter (fun c => !(c == '#')) = t := by
        rw [List.filter_eq_self]
        intro a ha
        have hane : a ≠ '#' := by
          intro hc
          exact hhash (by simpa [hc] using ha)
        simp [hane]
      by_cases hc : c = '#'
      · subst hc
        simp [List.filter_cons, htf, stripLeadingHash]
      · simp [List.filter_cons, hc, htf, stripLeadingHash]
  · intro X hstrip hhead
    constructor
    · have h1 : pyStrip ('#' :: X) = '#' :: X :=
        pyStrip_cons_fix (by decide) hstrip
      unfold cleanInputOrder
      rw [h1]
      simp [stripLeadingHash]
    · unfold cleanInputOrder
      rw [hstrip]
      cases X with
      | nil => rfl
      | cons c t =>
        have hcne : c ≠ '#' := by
          intro hc
          exact hhead (by simp [hc])
        simp [stripLeadingHash, hcne]

/-- Claim C2 (amended, witness): hash-stripping at the concrete token
`1001`. -/
theorem order_normalization_amended_witness :
    cleanInputOrder ('#' :: "1001".toList) = "1001".toList ∧
    cleanInputOrder ("1001".toList) = "1001".toList :=
  order_normalization_amended.2.1 ("1001".toList) (by decide) (by decide)

/-! ### Helper lemmas about the line parser -/

lemma splitFirstSpace_some (l : Str) :
    ∀ a b : Str, splitFirstSpace l = some (a, b) →
      l = a ++ ' ' :: b ∧ ' ' ∉ a := by
  induction l with
  | nil => intro a b h; simp [splitFirstSpace] at h
  | cons c rest ih =>
    intro a b h
    by_cases hc : c = ' '
    · subst hc
      simp only [splitFirstSpace, if_pos, Option.some.injEq, Prod.mk.injEq] at h
      obtain ⟨ha, hb⟩ := h
      subst ha; subst hb
      exact ⟨rfl, by simp⟩
    · simp only [splitFirstSpace, hc, if_false, ite_false, Option.map_eq_some'] at h
      obtain ⟨p, hp, hpe⟩ := h
      obtain ⟨hl, hna⟩ := ih p.1 p.2 (by rw [hp])
      obtain ⟨ha, hb⟩ := Prod.mk.injEq .. |>.mp hpe
      subst ha; subst hb
      refine ⟨by rw [hl]; rfl, ?_⟩
      simp only [List.mem_cons, not_or]
      exact ⟨fun h => hc h.symm, hna⟩

lemma splitLines_no_newline (l : Str) (h : '\n' ∉ l) : splitLines l = [l] := by
  induction l with
  | nil => rfl
  | cons c rest ih =>
    have hc : c ≠ '\n' := fun hcc => h (by simp [hcc])
    have hrest : '\n' ∉ rest := fun hm => h (by simp [hm])
    simp [splitLines, hc, ih hrest]

/-- Claim C10 (counterexample): the claim says exactly the non-empty lines
containing no space are parse errors and the tracking token is everything
after the first space kept intact. The line `# X` contains a space yet is
rejected as a parse error (its order token strips to empty); and for
`A  B` everything after the first space is ` B` but the accepted tracking
token is the stripped `B`. -/
theorem line_parser_cx :
    parseBulk ("# X".toList) = ⟨[], 1⟩ ∧
    ' ' ∈ "# X".toList ∧
    pyStrip ("# X".toList) ≠ [] ∧
    parseBulk ("A  B".toList) = ⟨[("A".toList, "B".toList)], 0⟩ ∧
    splitFirstSpace ("A  B".toList) = some ("A".toList, " B".toList) := by
  decide

/-- Claim C10 (amended): the parser splits each non-blank trimmed line at
its first space (the text before the first space contains no space); the
order token is the trimmed text before the first space with one leading `#`
stripped, the tracking token is the text after the first space with
surrounding whitespace trimmed (interior spaces kept); a non-blank line is
a parse error exactly when it contains no space or when the order or
tracking token is empty after this normalization; blank lines are ignored,
counted neither as pairs nor as errors. -/
theorem line_parser_amended :
    (∀ l a b : Str, splitFirstSpace l = some (a, b) →
      l = a ++ ' ' :: b ∧ ' ' ∉ a) ∧
    (∀ l : Str, '\n' ∉ l → pyStrip l = l →
      (l = [] → parseBulk l = ⟨[], 0⟩) ∧
      (splitFirstSpace l = none → l ≠ [] → parseBulk l = ⟨[], 1⟩) ∧
      (∀ a b : Str, splitFirstSpace l = some (a, b) →
        (stripLeadingHash (pyStrip a) = [] ∨ pyStrip b = [] →
          parseBulk l = ⟨[], 1⟩) ∧
        (stripLeadingHash (pyStrip a) ≠ [] → pyStrip b ≠ [] →
          parseBulk l =
            ⟨[(stripLeadingHash (pyStrip a), pyStrip b)], 0⟩))) := by
  refine ⟨fun l => splitFirstSpace_some l, fun l hnl hstrip => ?_⟩
  have hsl : splitLines (pyStrip l) = [l] := by
    rw [hstrip]; exact splitLines_no_newline l hnl
  refine ⟨?_, ?_, ?_⟩
  · intro h0; subst h0; rfl
  · intro hnone hne
    unfold parseBulk
    rw [hsl]
    simp [parseBulkLine, hstrip, hne, hnone]
  · intro a b hsome
    have hne : l ≠ [] := by
      intro h0; rw [h0] at hsome; simp [splitFirstSpace] at hsome
    constructor
    · intro hemp
      unfold parseBulk
      rw [hsl]
      rcases hemp with he | he <;>
        simp [parseBulkLine, hstrip, hne, hsome, he]
    · intro h1 h2
      unfold parseBulk
      rw [hsl]
      simp [parseBulkLine, hstrip, hne, hsome, h1, h2]

/-- Claim C10 (amended, witness): the parse of the concrete line
`#1001 TRACK123`. -/
theorem line_parser_amended_witness :
    parseBulk ("#1001 TRACK123".toList) =
      ⟨[(stripLeadingHash (pyStrip ("#1001".toList)),
         pyStrip ("TRACK123".toList))], 0⟩ :=
  ((line_parser_amended.2 ("#1001 TRACK123".toList) (by decide)
      (by decide)).2.2 ("#1001".toList) ("TRACK123".toList)
    (by decide)).2 (by decide) (by decide)

/-- Claim C4 (counterexample): the claim says `added + updated + skipped`
equals the number of raw input lines minus the lines failing the two-token
parse. For the text `#1 A\n1 B` both lines parse, but they share the
normalized order number `1`, so deduplication keeps only the last pair:
the counts sum to 1 while the claim predicts 2. -/
theorem count_conservation_cx :
    ((bulkUpdateRoute [] ("05-10-2026".toList) ("#1 A\n1 B".toList)).1.added +
      (bulkUpdateRoute [] ("05-10-2026".toList) ("#1 A\n1 B".toList)).1.updated +
      (bulkUpdateRoute [] ("05-10-2026".toList) ("#1 A\n1 B".toList)).1.skipped)
      = 1 ∧
    (splitLines ("#1 A\n1 B".toList)).length = 2 ∧
    ((splitLines ("#1 A\n1 B".toList)).filter
        (fun l => decide (splitFirstSpace (pyStrip l) = none))).length = 0 ∧
    ((bulkUpdateRoute [] ("05-10-2026".toList) ("#1 A\n1 B".toList)).1.added +
      (bulkUpdateRoute [] ("05-10-2026".toList) ("#1 A\n1 B".toList)).1.updated +
      (bulkUpdateRoute [] ("05-10-2026".toList) ("#1 A\n1 B".toList)).1.skipped)
      ≠
      (splitLines ("#1 A\n1 B".toList)).length -
        ((splitLines ("#1 A\n1 B".toList)).filter
          (fun l => decide (splitFirstSpace (pyStrip l) = none))).length := by
  decide

/-- Claim C4 (amended): for every bulk-text call,
`added + updated + skipped` equals the number of lines of the trimmed input
minus the blank lines, minus the lines reported as parse errors (no-space
lines and empty-token lines alike), minus the duplicate occurrences removed
by last-wins deduplication. -/
theorem count_conservation_amended (existing : List LedgerRow)
    (today text : Str) :
    (bulkUpdateRoute existing today text).1.added +
      (bulkUpdateRoute existing today text).1.updated +
      (bulkUpdateRoute existing today text).1.skipped +
      blankCount (splitLines (pyStrip text)) +
      (parseBulk text).errors +
      ((parseBulk text).pairs.length -
        (dedupLastWins (parseBulk text).pairs).length) =
    (splitLines (pyStrip text)).length := by
  have h1 := bulk_counts_sum existing today
    (dedupLastWins (parseBulk text).pairs) ⟨[], [], 0, 0, 0⟩
  have h2 := parse_length (splitLines (pyStrip text)) ⟨[], 0⟩
  have h3 := dedupLastWins_length_le (parseBulk text).pairs
  simp only [List.length_nil] at h1 h2
  simp only [bulkUpdateRoute, bulkUpdateOrders, parseBulk] at h1 h2 h3 ⊢
  omega

end EtsyLedger
